import Mathlib

/-!
Verification development for the `code2project` core: the import analyzer
(`analyzeDependencies`, `cleanPackageName`) and the project scaffold generator
(`generateProjectZip`).  Source text is modelled as `String` / `List Char`;
JavaScript `Set` insertion as ordered duplicate-free lists; the zip archive as
the ordered list of (path, content) file writes issued against the archive.
-/

namespace Code2Project

/-! ### Character classes (model of the JavaScript regex classes over ASCII) -/

/-- Model of the JavaScript `\s` class for the ASCII range. -/
def isSpaceChar (c : Char) : Bool :=
  c = ' ' || c = '\t' || c = '\n' || c = '\r' || c = '\x0b' || c = '\x0c'

/-- The two quote characters accepted by the `['"]` class. -/
def isQuoteChar (c : Char) : Bool :=
  c = Char.ofNat 39 || c = '"'

/-- Model of the JavaScript `.` class: any character except a line terminator. -/
def isDotClassChar (c : Char) : Bool :=
  !(c = '\n' || c = '\r')

/-- The `[a-zA-Z0-9]` class. -/
def isAlphanumChar (c : Char) : Bool :=
  ('a' ≤ c && c ≤ 'z') || ('A' ≤ c && c ≤ 'Z') || ('0' ≤ c && c ≤ '9')

/-- The `[A-Z]` range. -/
def isAsciiUpper (c : Char) : Bool :=
  'A' ≤ c && c ≤ 'Z'

/-- Model of `String.prototype.toLowerCase` on one character (ASCII range). -/
def toLowerChar (c : Char) : Char :=
  if isAsciiUpper c then Char.ofNat (c.toNat + 32) else c

/-! ### List-of-characters utilities -/

/-- `startsWithChar l c` models `s.startsWith(c)` for a one-character prefix. -/
def startsWithChar (l : List Char) (c : Char) : Bool :=
  match l with
  | [] => false
  | d :: _ => d = c

/-- Remove the literal character sequence `cs` from the front of `l`, if present. -/
def dropPrefixChars : List Char → List Char → Option (List Char)
  | [], l => some l
  | _ :: _, [] => none
  | c :: cs, d :: ds => if d = c then dropPrefixChars cs ds else none

/-- Does `pat` occur as a literal prefix of `l`? -/
def substrAt : List Char → List Char → Bool
  | [], _ => true
  | _ :: _, [] => false
  | c :: cs, d :: ds => c = d && substrAt cs ds

/-- Does `pat` occur anywhere in `l`?  Model of `String.prototype.includes`. -/
def containsSub (pat : List Char) : List Char → Bool
  | [] => substrAt pat []
  | d :: ds => substrAt pat (d :: ds) || containsSub pat ds

/-- Model of `String.prototype.split(sep)` for a one-character separator. -/
def splitOnChar (sep : Char) : List Char → List (List Char)
  | [] => [[]]
  | c :: rest =>
    if c = sep then [] :: splitOnChar sep rest
    else
      match splitOnChar sep rest with
      | h :: t => (c :: h) :: t
      | [] => [[c]]

/-- Join chunks with `/` (used to state the scoped-package normalization). -/
def joinSlash : List String → String
  | [] => ""
  | [x] => x
  | x :: xs => x ++ "/" ++ joinSlash xs

/-- Skip the characters matched by a greedy `\s*`. -/
def skipSpaces (l : List Char) : List Char :=
  l.dropWhile isSpaceChar

/-- Split off the maximal run of non-quote characters (`[^'"]*`, greedy). -/
def spanNonQuote : List Char → List Char × List Char
  | [] => ([], [])
  | c :: rest =>
    if isQuoteChar c then ([], c :: rest)
    else
      let p := spanNonQuote rest
      (c :: p.1, p.2)

/-! ### The two import-statement patterns

The analyzer scans with the global regexes
`/(?:import|require)\s*(?:\(\s*|.*?from\s*)['"]([^'"]+)['"]/g` and
`/import\s+['"]([^'"]+)['"]/g`.  Each is modelled as a matcher that, at a
fixed start position, returns the captured group and the text remaining
after the whole match, following the backtracking engine's strategy
(leftmost start, first alternative first, greedy/lazy repetition). -/

/-- Tail of both patterns: `['"]([^'"]+)['"]` — an opening quote, a nonempty
captured run of non-quote characters, and a closing quote. -/
def tailMatch : List Char → Option (String × List Char)
  | [] => none
  | c :: rest =>
    if isQuoteChar c then
      match spanNonQuote rest with
      | ([], _) => none
      | (cap, rest2) =>
        match rest2 with
        | c2 :: rest3 => if isQuoteChar c2 then some (String.mk cap, rest3) else none
        | [] => none
    else none

/-- The lazy alternative `.*?from\s*` followed by the quoted tail: try `from`
at the current position first; on failure let `.` consume one more (non-line
terminator) character and retry. -/
def altFromScan : List Char → Option (String × List Char)
  | [] => none
  | c :: rest =>
    match dropPrefixChars "from".data (c :: rest) with
    | some l4 =>
      match tailMatch (skipSpaces l4) with
      | some r => some r
      | none => if isDotClassChar c then altFromScan rest else none
    | none => if isDotClassChar c then altFromScan rest else none

/-- After `import`/`require`: `\s*`, then the alternative `\(\s*` (tried
first), else `.*?from\s*`, then the quoted tail. -/
def tryAfterKeyword (l1 : List Char) : Option (String × List Char) :=
  let l2 := skipSpaces l1
  let alt1 :=
    match l2 with
    | '(' :: r => tailMatch (skipSpaces r)
    | _ => none
  match alt1 with
  | some res => some res
  | none => altFromScan l2

/-- Matcher for the first regex at a fixed start position. -/
def tryMatch1 (l : List Char) : Option (String × List Char) :=
  match dropPrefixChars "import".data l with
  | some l1 => tryAfterKeyword l1
  | none =>
    match dropPrefixChars "require".data l with
    | some l1 => tryAfterKeyword l1
    | none => none

/-- Matcher for the side-effect-import regex `import\s+['"]([^'"]+)['"]` at a
fixed start position. -/
def tryMatch2 (l : List Char) : Option (String × List Char) :=
  match dropPrefixChars "import".data l with
  | none => none
  | some l1 =>
    match l1 with
    | [] => none
    | c :: rest => if isSpaceChar c then tailMatch (skipSpaces rest) else none

/-- The `while (match = re.exec(code))` loop: find the leftmost match at or
after the current position, record its capture, and continue after the match
(advancing by one position on an empty match, as `lastIndex` handling does).
The fuel argument bounds the number of scan steps; `l.length` suffices because
every step either advances one position or past a nonempty match. -/
def findMatchesFuel (tryM : List Char → Option (String × List Char)) :
    Nat → List Char → List String
  | 0, _ => []
  | _, [] => []
  | fuel + 1, c :: rest =>
    match tryM (c :: rest) with
    | some (cap, restAfter) => cap :: findMatchesFuel tryM fuel restAfter
    | none => findMatchesFuel tryM fuel rest

/-- All captures of the first import/require regex over `code`, in match order. -/
def extractPaths1 (code : String) : List String :=
  findMatchesFuel tryMatch1 code.data.length code.data

/-- All captures of the side-effect-import regex over `code`, in match order. -/
def extractPaths2 (code : String) : List String :=
  findMatchesFuel tryMatch2 code.data.length code.data

/-! ### The analyzer proper -/

/-- `Set.add`: append the element unless it is already present. -/
def insertUniq (l : List String) (s : String) : List String :=
  if s ∈ l then l else l ++ [s]

/-- Helper to handle deep imports like `lodash/debounce` → `lodash`
(`cleanPackageName` in the source). -/
def cleanPackageName (name : String) : Option String :=
  if name.data = [] then none
  else if startsWithChar name.data '.' || startsWithChar name.data '/' then none
  else if startsWithChar name.data '@' then
    match splitOnChar '/' name.data with
    | a :: b :: _ => some (String.mk a ++ "/" ++ String.mk b)
    | _ => some name
  else
    match splitOnChar '/' name.data with
    | a :: _ => some (String.mk a)
    | [] => some name

/-- State threaded through the scan: packages found so far, local imports
found so far (each an insertion-ordered duplicate-free list). -/
def processPath (st : List String × List String) (path : String) :
    List String × List String :=
  if path = "" then st
  else if startsWithChar path.data '.' || startsWithChar path.data '/' then
    (st.1, insertUniq st.2 path)
  else
    match cleanPackageName path with
    | some pkg => (insertUniq st.1 pkg, st.2)
    | none => st

/-- Result of the analyzer (`AnalysisResult` in `types.ts`). -/
structure AnalysisResult where
  dependencies : List String
  localImports : List String
deriving DecidableEq, Repr

/-- Drop the fixed denylist (`react`, `react-dom`, `fs`, `path`), as the four
`Set.delete` calls do. -/
def denyFilter (deps : List String) : List String :=
  (((deps.filter (fun d => d ≠ "react")).filter (fun d => d ≠ "react-dom")).filter
      (fun d => d ≠ "fs")).filter (fun d => d ≠ "path")

/-- The analyzer (`analyzeDependencies` in the source): scan with both
patterns, classify every captured path, apply the `framer-motion` heuristic,
then the denylist. -/
def analyzeDependencies (code : String) : AnalysisResult :=
  let st1 := (extractPaths1 code).foldl processPath ([], [])
  let st2 := (extractPaths2 code).foldl processPath st1
  let deps :=
    if containsSub "motion.".data code.data || containsSub "AnimatePresence".data code.data then
      insertUniq st2.1 "framer-motion"
    else st2.1
  { dependencies := denyFilter deps, localImports := st2.2 }

/-- Any of the four literal tokens whose presence can make the analyzer emit
anything: the two statement keywords and the two implicit-dependency markers. -/
def hasImportLikeToken (code : String) : Bool :=
  containsSub "import".data code.data || containsSub "require".data code.data ||
    containsSub "motion.".data code.data || containsSub "AnimatePresence".data code.data

/-! ### Generator data model (`types.ts` and `generateProjectZip`) -/

/-- `FileType` from `types.ts`. -/
inductive FileType where
  | JS
  | JSX
  | TS
  | TSX
  | UNKNOWN
deriving DecidableEq, BEq, Repr

/-- `GeneratedProjectConfig` from `types.ts`. -/
structure GeneratedProjectConfig where
  fileName : String
  fileContent : String
  projectName : String
  dependencies : List String
  localImports : List String
deriving DecidableEq, Repr

/-- `fileType === FileType.TS || fileType === FileType.TSX`. -/
def isTSOf (ft : FileType) : Bool :=
  ft == FileType.TS || ft == FileType.TSX

/-- `config.projectName.toLowerCase().replace(/\s+/g, '-')`: lowercase the
name, then collapse every maximal whitespace run to a single hyphen.  The
Boolean argument records whether the previous character was part of a
whitespace run already replaced. -/
def collapseWSAux : Bool → List Char → List Char
  | _, [] => []
  | prevWS, c :: rest =>
    if isSpaceChar c then
      if prevWS then collapseWSAux true rest
      else '-' :: collapseWSAux true rest
    else c :: collapseWSAux false rest

/-- The manifest `name` field computed from `projectName`. -/
def packageName (projectName : String) : String :=
  String.mk (collapseWSAux false (projectName.data.map toLowerChar))

/-- The fixed baseline dependency map (insertion order of the object literal). -/
def baselineDependencies : List (String × String) :=
  [("react", "^19.0.0"), ("react-dom", "^19.0.0"), ("clsx", "^2.1.0"),
   ("tailwind-merge", "^2.2.0"), ("lucide-react", "latest"),
   ("framer-motion", "^11.0.0"), ("tailwindcss-animate", "^1.0.7"),
   ("@tailwindcss/typography", "^0.5.10"), ("@tailwindcss/forms", "^0.5.7"),
   ("date-fns", "latest"), ("recharts", "latest")]

/-- `config.dependencies.forEach(dep => if (!dependencies[dep]) dependencies[dep] = "latest")`. -/
def mergeDependencies (configDeps : List String) : List (String × String) :=
  configDeps.foldl
    (fun m dep => if (m.lookup dep).isSome then m else m ++ [(dep, "latest")])
    baselineDependencies

/-- The `devDependencies` object: a fixed base plus, when the variant is
typed, the type checker and the node type declarations. -/
def devDependenciesList (isTS : Bool) : List (String × String) :=
  [("@types/react", "^19.0.0"), ("@types/react-dom", "^19.0.0"),
   ("@vitejs/plugin-react", "^4.3.4"), ("vite", "latest"),
   ("tailwindcss", "^4.0.0"), ("@tailwindcss/postcss", "^4.0.0"),
   ("postcss", "^8.5.1"), ("sass", "^1.70.0")] ++
  (if isTS then [("typescript", "^5.7.2"), ("@types/node", "^20.0.0")] else [])

/-- The `packageJson` object literal of `generateProjectZip`. -/
structure PackageJson where
  name : String
  isPrivate : Bool
  version : String
  moduleType : String
  scripts : List (String × String)
  dependencies : List (String × String)
  devDependencies : List (String × String)
deriving DecidableEq, Repr

/-- Build the manifest object from the generator's inputs. -/
def mkPackageJson (config : GeneratedProjectConfig) (isTS : Bool) : PackageJson :=
  { name := packageName config.projectName
    isPrivate := true
    version := "0.1.0"
    moduleType := "module"
    scripts := [("dev", "vite"), ("build", "vite build"), ("preview", "vite preview")]
    dependencies := mergeDependencies config.dependencies
    devDependencies := devDependenciesList isTS }

/-- Escape the two characters JSON string syntax requires escaping. -/
def jsonEscape (s : String) : String :=
  String.mk (s.data.foldr (fun c acc => if c = '"' || c = '\\' then '\\' :: c :: acc else c :: acc) [])

/-- A JSON string literal. -/
def jsonQuote (s : String) : String :=
  "\"" ++ jsonEscape s ++ "\""

/-- Render a string-to-string object body at nesting depth two. -/
def renderEntries (entries : List (String × String)) : String :=
  String.intercalate ",\n" (entries.map fun e => "    " ++ jsonQuote e.1 ++ ": " ++ jsonQuote e.2)

/-- Model of `JSON.stringify(packageJson, null, 2)`. -/
def renderPackageJson (p : PackageJson) : String :=
  "\x7b\n  \"name\": " ++ jsonQuote p.name ++
  ",\n  \"private\": " ++ (if p.isPrivate then "true" else "false") ++
  ",\n  \"version\": " ++ jsonQuote p.version ++
  ",\n  \"type\": " ++ jsonQuote p.moduleType ++
  ",\n  \"scripts\": \x7b\n" ++ renderEntries p.scripts ++
  "\n  \x7d,\n  \"dependencies\": \x7b\n" ++ renderEntries p.dependencies ++
  "\n  \x7d,\n  \"devDependencies\": \x7b\n" ++ renderEntries p.devDependencies ++
  "\n  \x7d\n\x7d"

/-! ### Fixed emitted file contents (literal braces written `\x7b`/`\x7d`,
apostrophes `\x27`, asterisks next to slashes `\x2a`, leading dashes of
custom-property names `\x2d`) -/

/-- The `vite.config` template. -/
def viteConfigContent : String :=
  "\nimport \x7b defineConfig \x7d from \x27vite\x27\nimport react from \x27@vitejs/plugin-react\x27\nimport path from \x27path\x27\n\nexport default defineConfig(\x7b\n  plugins: [react()],\n  resolve: \x7b\n    alias: \x7b\n      \"@\": path.resolve(__dirname, \"./src\"),\n    \x7d,\n  \x7d,\n  server: \x7b\n    host: true,\n    port: 3000\n  \x7d\n\x7d)\n"

/-- The `postcss.config` template. -/
def postcssConfigContent : String :=
  "export default \x7b plugins: \x7b \x27@tailwindcss/postcss\x27: \x7b\x7d \x7d \x7d"

/-- `JSON.stringify(tsConfig, null, 2)`. -/
def tsconfigContent : String :=
  "\x7b\n  \"compilerOptions\": \x7b\n    \"target\": \"ES2020\",\n    \"useDefineForClassFields\": true,\n    \"lib\": [\n      \"ES2020\",\n      \"DOM\",\n      \"DOM.Iterable\"\n    ],\n    \"module\": \"ESNext\",\n    \"skipLibCheck\": true,\n    \"moduleResolution\": \"bundler\",\n    \"allowImportingTsExtensions\": true,\n    \"resolveJsonModule\": true,\n    \"isolatedModules\": true,\n    \"noEmit\": true,\n    \"jsx\": \"react-jsx\",\n    \"strict\": true,\n    \"noUnusedLocals\": false,\n    \"noUnusedParameters\": false,\n    \"noFallthroughCasesInSwitch\": true,\n    \"baseUrl\": \".\",\n    \"paths\": \x7b\n      \"@/*\": [\n        \"./src/*\"\n      ]\n    \x7d\n  \x7d,\n  \"include\": [\n    \"src\"\n  ],\n  \"references\": [\n    \x7b\n      \"path\": \"./tsconfig.node.json\"\n    \x7d\n  ]\n\x7d"

/-- `JSON.stringify` of the `tsconfig.node.json` object. -/
def tsconfigNodeContent : String :=
  "\x7b\n  \"compilerOptions\": \x7b\n    \"composite\": true,\n    \"skipLibCheck\": true,\n    \"module\": \"ESNext\",\n    \"moduleResolution\": \"bundler\",\n    \"allowSyntheticDefaultImports\": true\n  \x7d,\n  \"include\": [\n    \"vite.config.ts\"\n  ]\n\x7d"

/-- The `index.html` template (a function of the project name and the entry
script extension, the two interpolated values). -/
def indexHtml (projectName : String) (jsxExt : String) : String :=
  "\n<!doctype html>\n<html lang=\"en\">\n  <head>\n    <meta charset=\"UTF-8\" />\n    <meta name=\"viewport\" content=\"width=device-width, initial-scale=1.0\" />\n    <title>" ++
  projectName ++
  "</title>\n    <link href=\"https://fonts.googleapis.com/css2?family=Inter:wght@300;400;500;600;700&family=Vazirmatn:wght@300;400;500;700&display=swap\" rel=\"stylesheet\">\n  </head>\n  <body>\n    <div id=\"root\"></div>\n    <script type=\"module\" src=\"/src/main." ++
  jsxExt ++
  "\"></script>\n  </body>\n</html>\n"

/-- The `src/main.*` entry script template. -/
def mainContent : String :=
  "\nimport React from \x27react\x27\nimport ReactDOM from \x27react-dom/client\x27\nimport App from \x27./App\x27 \nimport \x27./index.css\x27\n\nconst root = document.getElementById(\x27root\x27)\nif (root) \x7b\n  ReactDOM.createRoot(root).render(\n    <React.StrictMode>\n      <div className=\"min-h-screen bg-background text-foreground antialiased font-sans selection:bg-primary/20\">\n        <App />\n      </div>\n    </React.StrictMode>,\n  )\n\x7d\n"

/-- The placeholder emitted for a missing stylesheet. -/
def stylePlaceholderContent : String :=
  "/\x2a Placeholder style - Generated by CodeToProject \x2a/"

/-- The placeholder vector image emitted for a missing image. -/
def imagePlaceholderContent : String :=
  "<svg xmlns=\"http://www.w3.org/2000/svg\" viewBox=\"0 0 100 100\" style=\"background:#f1f5f9;\"><text x=\"50\" y=\"50\" dominant-baseline=\"middle\" text-anchor=\"middle\" font-family=\"sans-serif\" fill=\"#64748b\" font-weight=\"bold\">IMAGE</text></svg>"

/-- The global stylesheet `src/index.css` (fixed text). -/
def cssContent : String :=
  "\n@import \"tailwindcss\";\n\n@plugin \"tailwindcss-animate\";\n@plugin \"@tailwindcss/typography\";\n@plugin \"@tailwindcss/forms\";\n\n@theme \x7b\n  \x2d-font-sans: \x27Inter\x27, \x27Vazirmatn\x27, sans-serif;\n  \x2d-radius-lg: var(\x2d-radius);\n  \x2d-radius-md: calc(var(\x2d-radius) - 2px);\n  \x2d-radius-sm: calc(var(\x2d-radius) - 4px);\n\n" ++
  "  \x2d-color-background: var(\x2d-background);\n  \x2d-color-foreground: var(\x2d-foreground);\n  \x2d-color-card: var(\x2d-card);\n  \x2d-color-card-foreground: var(\x2d-card-foreground);\n  \x2d-color-popover: var(\x2d-popover);\n  \x2d-color-popover-foreground: var(\x2d-popover-foreground);\n  \x2d-color-primary: var(\x2d-primary);\n  \x2d-color-primary-foreground: var(\x2d-primary-foreground);\n  \x2d-color-secondary: var(\x2d-secondary);\n  \x2d-color-secondary-foreground: var(\x2d-secondary-foreground);\n  \x2d-color-muted: var(\x2d-muted);\n  \x2d-color-muted-foreground: var(\x2d-muted-foreground);\n  \x2d-color-accent: var(\x2d-accent);\n  \x2d-color-accent-foreground: var(\x2d-accent-foreground);\n  \x2d-color-destructive: var(\x2d-destructive);\n  \x2d-color-destructive-foreground: var(\x2d-destructive-foreground);\n  \x2d-color-border: var(\x2d-border);\n  \x2d-color-input: var(\x2d-input);\n  \x2d-color-ring: var(\x2d-ring);\n\n" ++
  "  \x2d-animate-accordion-down: accordion-down 0.2s ease-out;\n  \x2d-animate-accordion-up: accordion-up 0.2s ease-out;\n\n  @keyframes accordion-down \x7b\n    from \x7b height: 0 \x7d\n    to \x7b height: var(\x2d-radix-accordion-content-height) \x7d\n  \x7d\n  @keyframes accordion-up \x7b\n    from \x7b height: var(\x2d-radix-accordion-content-height) \x7d\n    to \x7b height: 0 \x7d\n  \x7d\n\x7d\n\n" ++
  "/\x2a\n  Universal Reset & Variable Definitions\n  Ensures perfect button alignment and consistent theming.\n\x2a/\n@layer base \x7b\n  :root \x7b\n    \x2d-background: hsl(0 0% 100%);\n    \x2d-foreground: hsl(222.2 84% 4.9%);\n    \x2d-card: hsl(0 0% 100%);\n    \x2d-card-foreground: hsl(222.2 84% 4.9%);\n    \x2d-popover: hsl(0 0% 100%);\n    \x2d-popover-foreground: hsl(222.2 84% 4.9%);\n    \x2d-primary: hsl(221.2 83.2% 53.3%);\n    \x2d-primary-foreground: hsl(210 40% 98%);\n    \x2d-secondary: hsl(210 40% 96.1%);\n    \x2d-secondary-foreground: hsl(222.2 47.4% 11.2%);\n    \x2d-muted: hsl(210 40% 96.1%);\n    \x2d-muted-foreground: hsl(215.4 16.3% 46.9%);\n    \x2d-accent: hsl(210 40% 96.1%);\n    \x2d-accent-foreground: hsl(222.2 47.4% 11.2%);\n    \x2d-destructive: hsl(0 84.2% 60.2%);\n    \x2d-destructive-foreground: hsl(210 40% 98%);\n    \x2d-border: hsl(214.3 31.8% 91.4%);\n    \x2d-input: hsl(214.3 31.8% 91.4%);\n    \x2d-ring: hsl(221.2 83.2% 53.3%);\n    \x2d-radius: 0.5rem;\n  \x7d\n\n" ++
  "  .dark \x7b\n    \x2d-background: hsl(222.2 84% 4.9%);\n    \x2d-foreground: hsl(210 40% 98%);\n    \x2d-card: hsl(222.2 84% 4.9%);\n    \x2d-card-foreground: hsl(210 40% 98%);\n    \x2d-popover: hsl(222.2 84% 4.9%);\n    \x2d-popover-foreground: hsl(210 40% 98%);\n    \x2d-primary: hsl(217.2 91.2% 59.8%);\n    \x2d-primary-foreground: hsl(222.2 47.4% 11.2%);\n    \x2d-secondary: hsl(217.2 32.6% 17.5%);\n    \x2d-secondary-foreground: hsl(210 40% 98%);\n    \x2d-muted: hsl(217.2 32.6% 17.5%);\n    \x2d-muted-foreground: hsl(215 20.2% 65.1%);\n    \x2d-accent: hsl(217.2 32.6% 17.5%);\n    \x2d-accent-foreground: hsl(210 40% 98%);\n    \x2d-destructive: hsl(0 62.8% 30.6%);\n    \x2d-destructive-foreground: hsl(210 40% 98%);\n    \x2d-border: hsl(217.2 32.6% 17.5%);\n    \x2d-input: hsl(217.2 32.6% 17.5%);\n    \x2d-ring: hsl(212.7 26.8% 83.9%);\n  \x7d\n\n" ++
  "  * \x7b\n    border-color: var(\x2d-border);\n  \x7d\n\n  body \x7b\n    background-color: var(\x2d-background);\n    color: var(\x2d-foreground);\n    font-feature-settings: \"rlig\" 1, \"calt\" 1;\n    -webkit-font-smoothing: antialiased;\n    -moz-osx-font-smoothing: grayscale;\n  \x7d\n\n  /\x2a \n    CRITICAL: Enforce flexbox centering for all buttons \n    This fixes the \"crooked button\" issue caused by line-height/vertical-align\n  \x2a/\n  button, \n  [role=\"button\"],\n  input[type=\"submit\"],\n  input[type=\"reset\"],\n  input[type=\"button\"],\n  .btn \x7b\n    display: inline-flex;\n    align-items: center;\n    justify-content: center;\n    white-space: nowrap;\n    vertical-align: middle;\n  \x7d\n\x7d\n"

/-! ### Ghost-file synthesis -/

/-- `importPath.replace(/^\.\//, '').replace(/^\//, '')`. -/
def cleanImportPath (p : String) : String :=
  let l1 := match p.data with
    | '.' :: '/' :: rest => rest
    | l => l
  let l2 := match l1 with
    | '/' :: rest => rest
    | l => l
  String.mk l2

/-- `cleanPath.split('/').pop() || ''`. -/
def lastSegment (s : String) : String :=
  String.mk ((splitOnChar '/' s.data).getLastD [])

/-- Does `pat` occur as a literal suffix of `l`? -/
def endsWithSeq (l pat : List Char) : Bool :=
  substrAt pat.reverse l.reverse

/-- `lastPart.match(/\.(e1|e2|...)$/)`: the last segment ends in a dot
followed by one of the listed extensions. -/
def hasAnyExt (lastPart : String) (exts : List String) : Bool :=
  exts.any fun e => endsWithSeq lastPart.data ("." ++ e).data

/-- The stylesheet extension alternation. -/
def styleExts : List String := ["css", "scss", "sass", "less", "styl"]

/-- The image extension alternation. -/
def imageExts : List String := ["png", "jpg", "jpeg", "svg", "gif", "webp", "ico", "bmp"]

/-- The json extension alternation. -/
def jsonExts : List String := ["json"]

/-- The variant-appropriate component extension. -/
def componentExt (isTS : Bool) : String :=
  if isTS then ".tsx" else ".jsx"

/-- `lastPart.replace(/[^a-zA-Z0-9]/g, '') || 'Component'`. -/
def componentIdent (lastPart : String) : String :=
  let f := lastPart.data.filter isAlphanumChar
  if f = [] then "Component" else String.mk f

/-- The ghost component template (a function of the two interpolated values). -/
def dummyContent (cleanPath componentName : String) : String :=
  "\nimport React from \x27react\x27;\n// Ghost Component generated to prevent build errors\n// Missing file: " ++
  cleanPath ++ "\nconst " ++ componentName ++
  " = (props: any) => (\n  <div className=\"p-4 border border-dashed border-amber-300 bg-amber-50 rounded text-center\">\n    <p className=\"text-amber-600 font-mono text-xs\">Missing Component: " ++
  cleanPath ++ "</p>\n  </div>\n);\n" ++
  ("export default " ++ componentName ++ ";\nexport const " ++ componentName ++
    "Named = " ++ componentName ++ ";\n")

/-- One iteration of the ghost-file loop: the (path, content) pair written
under `src/` for one `localImports` entry. -/
def ghostFile (isTS : Bool) (importPath : String) : String × String :=
  let cleanPath := cleanImportPath importPath
  let lastPart := lastSegment cleanPath
  if lastPart.data.contains '.' && hasAnyExt lastPart styleExts then
    (cleanPath, stylePlaceholderContent)
  else if lastPart.data.contains '.' && hasAnyExt lastPart imageExts then
    (cleanPath, imagePlaceholderContent)
  else if lastPart.data.contains '.' && hasAnyExt lastPart jsonExts then
    (cleanPath, "\x7b\x7d")
  else
    let extension := if lastPart.data.contains '.' then "" else componentExt isTS
    (cleanPath ++ extension, dummyContent cleanPath (componentIdent lastPart))

/-- The generator (`generateProjectZip` in the source), modelled as the
ordered list of (path, content) writes issued against the archive; paths of
files created inside the `src` folder carry the `src/` prefix `JSZip` gives
them. -/
def generateProjectZip (config : GeneratedProjectConfig) (fileType : FileType) :
    List (String × String) :=
  let isTS := isTSOf fileType
  let ext := if isTS then "ts" else "js"
  let jsxExt := if isTS then "tsx" else "jsx"
  [("package.json", renderPackageJson (mkPackageJson config isTS)),
   ("vite.config." ++ ext, viteConfigContent),
   ("postcss.config." ++ ext, postcssConfigContent)] ++
  (if isTS then
    [("tsconfig.json", tsconfigContent), ("tsconfig.node.json", tsconfigNodeContent)]
   else []) ++
  [("index.html", indexHtml config.projectName jsxExt),
   ("src/main." ++ jsxExt, mainContent),
   ("src/App." ++ (if isTS then "tsx" else "jsx"), config.fileContent)] ++
  config.localImports.map (fun p => ("src/" ++ (ghostFile isTS p).1, (ghostFile isTS p).2)) ++
  [("src/index.css", cssContent)]

/-! ### Spec-side characterizations used in claim statements -/

/-- The character class the spec allows in a slug: lowercase letters, digits,
hyphens. -/
def isSlugChar (c : Char) : Bool :=
  ('a' ≤ c && c ≤ 'z') || ('0' ≤ c && c ≤ '9') || c = '-'

/-- Spec wording for scoped-package normalization: keep exactly the first two
`/`-delimited segments. -/
def specNormalizeScoped (name : String) : String :=
  joinSlash (((splitOnChar '/' name.data).take 2).map String.mk)

/-- Spec wording for bare-package normalization: keep only the first
`/`-delimited segment. -/
def specNormalizeBare (name : String) : String :=
  String.mk ((splitOnChar '/' name.data).headD [])

/-! ### Concrete inputs used by witnesses and counterexamples -/

/-- A config whose project name needs slugification. -/
def cfgMyCool : GeneratedProjectConfig :=
  { fileName := "App.tsx", fileContent := "export default 0",
    projectName := "My Cool App!!", dependencies := [], localImports := [] }

/-- A config with one extensionless local import. -/
def cfgButton : GeneratedProjectConfig :=
  { fileName := "App.tsx", fileContent := "export default 0", projectName := "demo",
    dependencies := [], localImports := ["./components/Button"] }

/-- A config with one local import carrying an unrecognized extension. -/
def cfgCompJsx : GeneratedProjectConfig :=
  { fileName := "App.jsx", fileContent := "export default 0", projectName := "demo",
    dependencies := [], localImports := ["./Comp.jsx"] }

/-- Two configs that differ only in `fileName`. -/
def cfgNameA : GeneratedProjectConfig :=
  { fileName := "a.tsx", fileContent := "export default 0", projectName := "demo",
    dependencies := ["lodash"], localImports := ["./x"] }

/-- See `cfgNameA`. -/
def cfgNameB : GeneratedProjectConfig :=
  { fileName := "b.tsx", fileContent := "export default 0", projectName := "demo",
    dependencies := ["lodash"], localImports := ["./x"] }

/-! ### Helper lemmas -/

theorem mem_insertUniq {l : List String} {s p : String} (h : p ∈ insertUniq l s) :
    p ∈ l ∨ p = s := by
  unfold insertUniq at h
  split at h
  · exact Or.inl h
  · rcases List.mem_append.mp h with h1 | h2
    · exact Or.inl h1
    · exact Or.inr (List.mem_singleton.mp h2)

theorem splitOnChar_ne_nil (sep : Char) (l : List Char) : splitOnChar sep l ≠ [] := by
  cases l with
  | nil => simp [splitOnChar]
  | cons c rest =>
    simp only [splitOnChar]
    split
    · simp
    · cases hs : splitOnChar sep rest <;> simp

theorem splitOnChar_cons_ne (sep c : Char) (rest : List Char) (h : ¬ c = sep) :
    ∃ a t, splitOnChar sep (c :: rest) = (c :: a) :: t := by
  simp only [splitOnChar, if_neg h]
  cases hs : splitOnChar sep rest with
  | nil => exact ⟨[], [], rfl⟩
  | cons h' t' => exact ⟨h', t', rfl⟩

theorem splitOnChar_eq_singleton (sep : Char) (l a : List Char)
    (h : splitOnChar sep l = [a]) : a = l := by
  induction l generalizing a with
  | nil =>
    simp only [splitOnChar] at h
    injection h with h1 _
    exact h1.symm
  | cons c rest ih =>
    by_cases hc : c = sep
    · subst hc
      simp only [splitOnChar, if_pos rfl] at h
      injection h with _ h2
      exact absurd h2 (splitOnChar_ne_nil c rest)
    · simp only [splitOnChar, if_neg hc] at h
      cases hs : splitOnChar sep rest with
      | nil => exact absurd hs (splitOnChar_ne_nil sep rest)
      | cons h' t' =>
        rw [hs] at h
        injection h with h1 h2
        rw [h2] at hs
        have := ih h' hs
        rw [← h1, this]

theorem data_eq_nil_iff (s : String) : s.data = [] ↔ s = "" := by
  constructor
  · intro h
    cases s with
    | mk d =>
      have hd : d = [] := h
      rw [hd]
  · intro h; rw [h]

theorem mk_data_eq (s : String) : String.mk s.data = s := by
  cases s; rfl

/-- The package name produced by `cleanPackageName` starts with the same
character as the input, hence never with `.` or `/` when the input does not. -/
theorem cleanPackageName_head (name pkg : String)
    (hdot : startsWithChar name.data '.' = false)
    (hslash : startsWithChar name.data '/' = false)
    (h : cleanPackageName name = some pkg) :
    startsWithChar pkg.data '.' = false ∧ startsWithChar pkg.data '/' = false := by
  unfold cleanPackageName at h
  cases hd : name.data with
  | nil => rw [hd] at h; simp at h
  | cons c rest =>
    rw [hd] at h hdot hslash
    simp only [startsWithChar, decide_eq_false_iff_not] at hdot hslash
    rw [if_neg (by simp)] at h
    rw [if_neg (by simp [startsWithChar, hdot, hslash])] at h
    by_cases hat : c = '@'
    · rw [if_pos (by simp [startsWithChar, hat])] at h
      have hslash2 : ¬ c = '/' := by intro hc; exact hslash hc
      obtain ⟨a, t, hsplit⟩ := splitOnChar_cons_ne '/' c rest hslash2
      rw [hsplit] at h
      cases t with
      | nil =>
        simp only [Option.some.injEq] at h
        rw [← h, ← mk_data_eq name, hd]
        simp [startsWithChar, hdot, hslash]
      | cons b t2 =>
        simp only [Option.some.injEq] at h
        rw [← h]
        have hdata : ((String.mk (c :: a) ++ "/") ++ String.mk b).data
            = (c :: a) ++ ("/".data ++ b) := by
          rw [String.data_append, String.data_append]
          simp
        rw [hdata]
        simp [startsWithChar, hdot, hslash]
    · rw [if_neg (by simp [startsWithChar, hat])] at h
      have hslash2 : ¬ c = '/' := by intro hc; exact hslash hc
      obtain ⟨a, t, hsplit⟩ := splitOnChar_cons_ne '/' c rest hslash2
      rw [hsplit] at h
      simp only [Option.some.injEq] at h
      rw [← h]
      simp [startsWithChar, hdot, hslash]

/-- The scan invariant: no recorded package starts with `.` or `/`; every
recorded local import does. -/
def ScanInv (st : List String × List String) : Prop :=
  (∀ p ∈ st.1, startsWithChar p.data '.' = false ∧ startsWithChar p.data '/' = false) ∧
  (∀ p ∈ st.2, (startsWithChar p.data '.' || startsWithChar p.data '/') = true)

theorem processPath_inv (st : List String × List String) (path : String)
    (h : ScanInv st) : ScanInv (processPath st path) := by
  unfold processPath
  split
  · exact h
  · split
    · refine ⟨h.1, ?_⟩
      intro p hp
      rcases mem_insertUniq hp with h1 | h2
      · exact h.2 p h1
      · subst h2; assumption
    · rename_i hempty hlocal
      have hor : (startsWithChar path.data '.' || startsWithChar path.data '/') = false := by
        simpa using hlocal
      have hb := Bool.or_eq_false_iff.mp hor
      cases hclean : cleanPackageName path with
      | none => exact h
      | some pkg =>
        refine ⟨?_, h.2⟩
        intro p hp
        rcases mem_insertUniq hp with h1 | h2
        · exact h.1 p h1
        · subst h2
          exact cleanPackageName_head path p hb.1 hb.2 hclean

theorem foldl_processPath_inv (l : List String) (st : List String × List String)
    (h : ScanInv st) : ScanInv (l.foldl processPath st) := by
  induction l generalizing st with
  | nil => exact h
  | cons x xs ih => exact ih _ (processPath_inv st x h)

theorem dropPrefixChars_append (cs : List Char) :
    ∀ l l', dropPrefixChars cs l = some l' → l = cs ++ l' := by
  induction cs with
  | nil =>
    intro l l' h
    simp only [dropPrefixChars, Option.some.injEq] at h
    simp [h]
  | cons c cs ih =>
    intro l l' h
    cases l with
    | nil => simp [dropPrefixChars] at h
    | cons d ds =>
      simp only [dropPrefixChars] at h
      split at h
      · rename_i hdc
        rw [hdc, List.cons_append]
        exact congrArg _ (ih ds l' h)
      · exact absurd h (by simp)

theorem substrAt_self_append (pat rest : List Char) : substrAt pat (pat ++ rest) = true := by
  induction pat with
  | nil => rfl
  | cons c cs ih => simp [substrAt, ih]

theorem substrAt_of_dropPrefix (cs l l' : List Char) (h : dropPrefixChars cs l = some l') :
    substrAt cs l = true := by
  rw [dropPrefixChars_append cs l l' h]
  exact substrAt_self_append cs l'

theorem containsSub_of_parts (pat pre l' : List Char) (hsub : substrAt pat l' = true) :
    containsSub pat (pre ++ l') = true := by
  induction pre with
  | nil =>
    cases l' with
    | nil => simpa [containsSub] using hsub
    | cons d ds => simp [containsSub, hsub]
  | cons p ps ih => simp [containsSub, ih]

theorem substrAt_false_of_containsSub_false (pat l : List Char)
    (h : containsSub pat l = false) :
    ∀ pre l', pre ++ l' = l → substrAt pat l' = false := by
  intro pre l' hp
  by_contra hc
  have ht : substrAt pat l' = true := by
    cases hx : substrAt pat l' with
    | false => exact absurd hx hc
    | true => rfl
  have := containsSub_of_parts pat pre l' ht
  rw [hp, h] at this
  exact absurd this (by simp)

theorem tryMatch1_none_of_no_keyword (l : List Char)
    (h1 : substrAt "import".data l = false)
    (h2 : substrAt "require".data l = false) : tryMatch1 l = none := by
  unfold tryMatch1
  cases hi : dropPrefixChars "import".data l with
  | some l1 =>
    have := substrAt_of_dropPrefix _ _ _ hi
    rw [h1] at this
    exact absurd this (by simp)
  | none =>
    cases hr : dropPrefixChars "require".data l with
    | some l1 =>
      have := substrAt_of_dropPrefix _ _ _ hr
      rw [h2] at this
      exact absurd this (by simp)
    | none => rfl

theorem tryMatch2_none_of_no_keyword (l : List Char)
    (h1 : substrAt "import".data l = false) : tryMatch2 l = none := by
  unfold tryMatch2
  cases hi : dropPrefixChars "import".data l with
  | some l1 =>
    have := substrAt_of_dropPrefix _ _ _ hi
    rw [h1] at this
    exact absurd this (by simp)
  | none => rfl

theorem findMatchesFuel_nil (tryM : List Char → Option (String × List Char))
    (fuel : Nat) :
    ∀ l : List Char, (∀ pre l', pre ++ l' = l → tryM l' = none) →
      findMatchesFuel tryM fuel l = [] := by
  induction fuel with
  | zero => intro l _; cases l <;> rfl
  | succ n ih =>
    intro l H
    cases l with
    | nil => rfl
    | cons c rest =>
      have h0 : tryM (c :: rest) = none := H [] (c :: rest) rfl
      simp only [findMatchesFuel, h0]
      exact ih rest (fun pre l' hp => H (c :: pre) l' (by rw [List.cons_append, hp]))

/-! #### Character lemmas for the slug -/

theorem toNat_ofNat_valid (n : Nat) (h : n.isValidChar) : (Char.ofNat n).toNat = n := by
  simp [Char.ofNat, h, Char.ofNatAux, Char.toNat, UInt32.toNat, BitVec.toNat_ofNatLt]

theorem isAsciiUpper_toLowerChar (c : Char) : isAsciiUpper (toLowerChar c) = false := by
  unfold toLowerChar
  cases hu : isAsciiUpper c with
  | false =>
    rw [if_neg (by simp)]
    exact hu
  | true =>
    rw [if_pos rfl]
    have hpair : ('A' ≤ c) ∧ (c ≤ 'Z') := by
      have := hu
      unfold isAsciiUpper at this
      simpa [Bool.and_eq_true] using this
    have hlo : 65 ≤ c.toNat := Char.le_def.mp hpair.1
    have hhi : c.toNat ≤ 90 := Char.le_def.mp hpair.2
    have hv : (c.toNat + 32).isValidChar := Or.inl (by omega)
    have ht : (Char.ofNat (c.toNat + 32)).toNat = c.toNat + 32 := toNat_ofNat_valid _ hv
    unfold isAsciiUpper
    have hz : ¬ (Char.ofNat (c.toNat + 32) ≤ 'Z') := by
      intro hle
      have hnat : (Char.ofNat (c.toNat + 32)).toNat ≤ 90 := Char.le_def.mp hle
      rw [ht] at hnat
      omega
    simp [hz]

theorem collapseWSAux_chars (b : Bool) (l : List Char)
    (hl : ∀ c ∈ l, isAsciiUpper c = false) :
    ∀ c ∈ collapseWSAux b l, isSpaceChar c = false ∧ isAsciiUpper c = false := by
  induction l generalizing b with
  | nil => intro c hc; simp [collapseWSAux] at hc
  | cons x xs ih =>
    intro c hc
    simp only [collapseWSAux] at hc
    split at hc
    · rename_i hsp
      split at hc
      · exact ih true (fun d hd => hl d (List.mem_cons_of_mem x hd)) c hc
      · rcases List.mem_cons.mp hc with h1 | h2
        · subst h1; exact ⟨by decide, by decide⟩
        · exact ih true (fun d hd => hl d (List.mem_cons_of_mem x hd)) c h2
    · rename_i hsp
      rcases List.mem_cons.mp hc with h1 | h2
      · subst h1
        exact ⟨by simpa using hsp, hl _ (by simp)⟩
      · exact ih false (fun d hd => hl d (List.mem_cons_of_mem x hd)) c h2

/-- On an extensionless last segment, the ghost loop appends the variant
component extension and emits the placeholder component. -/
theorem ghostFile_component (isTS : Bool) (p : String)
    (h : (lastSegment (cleanImportPath p)).data.contains '.' = false) :
    ghostFile isTS p =
      (cleanImportPath p ++ componentExt isTS,
       dummyContent (cleanImportPath p) (componentIdent (lastSegment (cleanImportPath p)))) := by
  have h' : ¬ ('.' ∈ (lastSegment (cleanImportPath p)).data) := by simpa using h
  unfold ghostFile
  simp [h']

/-- On a dotted last segment with an unrecognized extension, the ghost loop
keeps the cleaned path unchanged and emits the placeholder component. -/
theorem ghostFile_dotted (isTS : Bool) (p : String)
    (hdot : (lastSegment (cleanImportPath p)).data.contains '.' = true)
    (hstyle : hasAnyExt (lastSegment (cleanImportPath p)) styleExts = false)
    (himg : hasAnyExt (lastSegment (cleanImportPath p)) imageExts = false)
    (hjson : hasAnyExt (lastSegment (cleanImportPath p)) jsonExts = false) :
    ghostFile isTS p =
      (cleanImportPath p,
       dummyContent (cleanImportPath p) (componentIdent (lastSegment (cleanImportPath p)))) := by
  have h' : '.' ∈ (lastSegment (cleanImportPath p)).data := by simpa using hdot
  unfold ghostFile
  simp [h', hstyle, himg, hjson, String.append_empty]

/-- A path under the `src/` folder never equals a root-level file name that
does not start with `s`. -/
theorem src_prefix_ne (x s : String) (h : startsWithChar s.data 's' = false) :
    ¬ ("src/" ++ x = s) := by
  intro he
  have hd : ("src/" ++ x).data = 's' :: 'r' :: 'c' :: '/' :: x.data := by
    rw [String.data_append]
    rfl
  rw [← he, hd] at h
  simp [startsWithChar] at h

/-! ## Claims -/

/-- **C1, counterexample.**  The claim says the manifest `name` contains no
characters other than lowercase letters, digits and hyphens.  For
`projectName = "My Cool App!!"` the generated name is `"my-cool-app!!"`,
which contains `!`, so the claim as stated is false. -/
theorem claim_C1_counterexample :
    (mkPackageJson cfgMyCool true).name = "my-cool-app!!" ∧
    ((mkPackageJson cfgMyCool true).name.data.all isSlugChar) = false := by
  constructor
  · rfl
  · decide

/-- **C1, amended.**  For every `projectName`, the manifest `name` contains no
whitespace characters and no uppercase ASCII letters (whitespace runs become
single hyphens and letters are lowercased); characters that are neither
whitespace nor uppercase letters — such as `!` — pass through unchanged. -/
theorem claim_C1_amended (config : GeneratedProjectConfig) (isTS : Bool) :
    (mkPackageJson config isTS).name.data.all
      (fun c => !isSpaceChar c && !isAsciiUpper c) = true := by
  rw [List.all_eq_true]
  intro c hc
  simp only [mkPackageJson, packageName] at hc
  have hchars : ∀ d ∈ config.projectName.data.map toLowerChar, isAsciiUpper d = false := by
    intro d hd
    rcases List.mem_map.mp hd with ⟨e, _, he⟩
    rw [← he]
    exact isAsciiUpper_toLowerChar e
  have hres := collapseWSAux_chars false _ hchars c hc
  simp [hres.1, hres.2]

/-- **C4.**  On every extracted external import path (nonempty, not starting
with `.` or `/`), `cleanPackageName` keeps exactly the first two
`/`-delimited segments when the path starts with `@`, and only the first
segment otherwise; the empty path is rejected silently (`none`). -/
theorem claim_C4 (name : String)
    (hdot : startsWithChar name.data '.' = false)
    (hslash : startsWithChar name.data '/' = false) :
    (name = "" → cleanPackageName name = none) ∧
    (name ≠ "" → startsWithChar name.data '@' = true →
      cleanPackageName name = some (specNormalizeScoped name)) ∧
    (name ≠ "" → startsWithChar name.data '@' = false →
      cleanPackageName name = some (specNormalizeBare name)) := by
  refine ⟨?_, ?_, ?_⟩
  · intro h; subst h; rfl
  · intro hne hat
    unfold cleanPackageName
    rw [if_neg (fun hh => hne ((data_eq_nil_iff name).mp hh))]
    rw [if_neg (by simp [hdot, hslash])]
    rw [if_pos hat]
    cases hs : splitOnChar '/' name.data with
    | nil => exact absurd hs (splitOnChar_ne_nil _ _)
    | cons a t =>
      cases t with
      | nil =>
        have ha : a = name.data := splitOnChar_eq_singleton _ _ _ hs
        unfold specNormalizeScoped
        rw [hs, ha]
        simp [joinSlash, mk_data_eq]
      | cons b t2 =>
        unfold specNormalizeScoped
        rw [hs]
        simp [joinSlash, String.append_assoc]
  · intro hne hat
    unfold cleanPackageName
    rw [if_neg (fun hh => hne ((data_eq_nil_iff name).mp hh))]
    rw [if_neg (by simp [hdot, hslash])]
    rw [if_neg (by simp [hat])]
    cases hs : splitOnChar '/' name.data with
    | nil => exact absurd hs (splitOnChar_ne_nil _ _)
    | cons a t =>
      unfold specNormalizeBare
      rw [hs]
      cases t <;> rfl

/-- Witness for C4 at `"@scope/pkg/deep"`. -/
theorem claim_C4_witness :
    startsWithChar "@scope/pkg/deep".data '.' = false ∧
    cleanPackageName "@scope/pkg/deep" = some (specNormalizeScoped "@scope/pkg/deep") := by
  refine ⟨by decide, ?_⟩
  exact (claim_C4 "@scope/pkg/deep" (by decide) (by decide)).2.1 (by decide) (by decide)

/-- **C7.**  The produced file tree (paths and contents) depends only on
`fileContent`, `projectName`, `dependencies`, `localImports` and the chosen
variant: two configs agreeing on those four fields generate identical trees. -/
theorem claim_C7 (c1 c2 : GeneratedProjectConfig) (ft : FileType)
    (h1 : c1.fileContent = c2.fileContent) (h2 : c1.projectName = c2.projectName)
    (h3 : c1.dependencies = c2.dependencies) (h4 : c1.localImports = c2.localImports) :
    generateProjectZip c1 ft = generateProjectZip c2 ft := by
  simp only [generateProjectZip, mkPackageJson, h1, h2, h3, h4]

/-- Witness for C7: two configs differing only in `fileName`. -/
theorem claim_C7_witness :
    generateProjectZip cfgNameA FileType.TS = generateProjectZip cfgNameB FileType.TS :=
  claim_C7 cfgNameA cfgNameB FileType.TS rfl rfl rfl rfl

/-- **C10.**  The tree is independent of the `fileName` field: changing only
`fileName` produces the same write list, and the user's content is written to
`src/App.<variant extension>` regardless. -/
theorem claim_C10 (c : GeneratedProjectConfig) (f1 f2 : String) (ft : FileType) :
    generateProjectZip { c with fileName := f1 } ft
      = generateProjectZip { c with fileName := f2 } ft ∧
    ("src/App." ++ (if isTSOf ft then "tsx" else "jsx"), c.fileContent)
      ∈ generateProjectZip c ft := by
  constructor
  · cases c; rfl
  · simp [generateProjectZip]

/-- **C8.**  The analyzer never reports `react`, `react-dom`, `fs` or `path`
as an external dependency, whatever the input text. -/
theorem claim_C8 (code : String) :
    (analyzeDependencies code).dependencies.all
      (fun d => d != "react" && d != "react-dom" && d != "fs" && d != "path") = true := by
  rw [List.all_eq_true]
  intro x hx
  simp only [analyzeDependencies] at hx
  unfold denyFilter at hx
  simp only [List.mem_filter, decide_eq_true_eq] at hx
  simp only [Bool.and_eq_true, bne_iff_ne]
  exact ⟨⟨⟨hx.1.1.1.2, hx.1.1.2⟩, hx.1.2⟩, hx.2⟩

/-- **C3.**  The analyzer is a total function (it is defined by structural
recursion, so every call terminates), and on text containing none of
the import-like tokens — `import`, `require`, `motion.`, `AnimatePresence` —
it returns two empty sequences. -/
theorem claim_C3 (code : String) (h : hasImportLikeToken code = false) :
    analyzeDependencies code = ⟨[], []⟩ := by
  unfold hasImportLikeToken at h
  simp only [Bool.or_eq_false_iff] at h
  obtain ⟨⟨⟨h1, h2⟩, h3⟩, h4⟩ := h
  have e1 : extractPaths1 code = [] := by
    unfold extractPaths1
    exact findMatchesFuel_nil _ _ code.data (fun pre l' hp =>
      tryMatch1_none_of_no_keyword l'
        (substrAt_false_of_containsSub_false _ _ h1 pre l' hp)
        (substrAt_false_of_containsSub_false _ _ h2 pre l' hp))
  have e2 : extractPaths2 code = [] := by
    unfold extractPaths2
    exact findMatchesFuel_nil _ _ code.data (fun pre l' hp =>
      tryMatch2_none_of_no_keyword l'
        (substrAt_false_of_containsSub_false _ _ h1 pre l' hp))
  unfold analyzeDependencies
  rw [e1, e2]
  simp [h3, h4, denyFilter]

/-- Witness for C3 on import-free text. -/
theorem claim_C3_witness :
    hasImportLikeToken "const x = 1;" = false ∧
    analyzeDependencies "const x = 1;" = ⟨[], []⟩ :=
  ⟨by decide, claim_C3 "const x = 1;" (by decide)⟩

/-- **C5.**  The two result sequences are disjoint: every local import starts
with `.` or `/`, no reported package does, no string occurs in both, and a
path starting with `.` or `/` is inserted raw into the local set (the
package set untouched). -/
theorem claim_C5 (code : String) :
    ((analyzeDependencies code).localImports.all
      (fun p => startsWithChar p.data '.' || startsWithChar p.data '/')) = true ∧
    ((analyzeDependencies code).dependencies.all
      (fun p => !startsWithChar p.data '.' && !startsWithChar p.data '/')) = true ∧
    ((analyzeDependencies code).dependencies.all
      (fun p => !decide (p ∈ (analyzeDependencies code).localImports))) = true ∧
    (∀ (st : List String × List String) (path : String),
      (startsWithChar path.data '.' || startsWithChar path.data '/') = true →
      processPath st path = (st.1, insertUniq st.2 path)) := by
  have base : ScanInv ([], []) := ⟨by simp, by simp⟩
  have hst1 := foldl_processPath_inv (extractPaths1 code) ([], []) base
  have hst2 := foldl_processPath_inv (extractPaths2 code)
    ((extractPaths1 code).foldl processPath ([], [])) hst1
  set st2 := (extractPaths2 code).foldl processPath
    ((extractPaths1 code).foldl processPath ([], [])) with hst2def
  have hdeps : ∀ p ∈ (if containsSub "motion.".data code.data
        || containsSub "AnimatePresence".data code.data then
        insertUniq st2.1 "framer-motion" else st2.1),
      startsWithChar p.data '.' = false ∧ startsWithChar p.data '/' = false := by
    intro p hp
    split at hp
    · rcases mem_insertUniq hp with hq | hq
      · exact hst2.1 p hq
      · subst hq; exact ⟨by decide, by decide⟩
    · exact hst2.1 p hp
  have hfinal : ∀ p ∈ (analyzeDependencies code).dependencies,
      startsWithChar p.data '.' = false ∧ startsWithChar p.data '/' = false := by
    intro p hp
    simp only [analyzeDependencies, denyFilter, List.mem_filter] at hp
    exact hdeps p hp.1.1.1.1
  have hlocfinal : ∀ p ∈ (analyzeDependencies code).localImports,
      (startsWithChar p.data '.' || startsWithChar p.data '/') = true := by
    intro p hp
    simp only [analyzeDependencies] at hp
    exact hst2.2 p hp
  refine ⟨?_, ?_, ?_, ?_⟩
  · rw [List.all_eq_true]
    exact hlocfinal
  · rw [List.all_eq_true]
    intro p hp
    have := hfinal p hp
    simp [this.1, this.2]
  · rw [List.all_eq_true]
    intro p hp
    have hnd := hfinal p hp
    simp only [Bool.not_eq_true', decide_eq_false_iff_not]
    intro hmem
    have := hlocfinal p hmem
    rw [hnd.1, hnd.2] at this
    exact absurd this (by simp)
  · intro st path hcond
    have hne : ¬ path = "" := by
      intro he
      subst he
      exact absurd hcond (by decide)
    unfold processPath
    rw [if_neg hne, if_pos hcond]

/-- Witness for C5: a local path is inserted raw into the local set. -/
theorem claim_C5_witness :
    processPath ([], ["./a"]) "./b" = ([], ["./a", "./b"]) := by
  rw [(claim_C5 "x").2.2.2 ([], ["./a"]) "./b" (by decide)]
  rfl

/-- **C2, counterexample.**  The claim says that for variant JSX no
type-declaration package is present in the dev-dependencies.  In fact
`@types/react` is present for every variant, JSX included. -/
theorem claim_C2_counterexample :
    isTSOf FileType.JSX = false ∧
    "@types/react" ∈ (mkPackageJson cfgMyCool (isTSOf FileType.JSX)).devDependencies.map Prod.fst := by
  exact ⟨rfl, by decide⟩

/-- **C2, amended.**  The type-checker package (`typescript`, together with
`@types/node`) is in the dev-dependencies, and the two type-checker
configuration files are in the tree, exactly when the variant is typed
(TS/TSX); the type-declaration packages `@types/react` and
`@types/react-dom`, however, are present for every variant, including JSX. -/
theorem claim_C2_amended (config : GeneratedProjectConfig) (ft : FileType) :
    (("typescript" ∈ (mkPackageJson config (isTSOf ft)).devDependencies.map Prod.fst ∧
      "@types/node" ∈ (mkPackageJson config (isTSOf ft)).devDependencies.map Prod.fst)
        ↔ isTSOf ft = true) ∧
    ("tsconfig.json" ∈ (generateProjectZip config ft).map Prod.fst ↔ isTSOf ft = true) ∧
    ("tsconfig.node.json" ∈ (generateProjectZip config ft).map Prod.fst ↔ isTSOf ft = true) ∧
    "@types/react" ∈ (mkPackageJson config (isTSOf ft)).devDependencies.map Prod.fst ∧
    "@types/react-dom" ∈ (mkPackageJson config (isTSOf ft)).devDependencies.map Prod.fst := by
  have hdev : (mkPackageJson config (isTSOf ft)).devDependencies
      = devDependenciesList (isTSOf ft) := rfl
  refine ⟨?_, ?_, ?_, ?_, ?_⟩
  · rw [hdev]
    cases hft : isTSOf ft <;> simp [devDependenciesList]
  · constructor
    · intro hmem
      cases hft : isTSOf ft
      · exfalso
        simp [generateProjectZip, hft] at hmem
        obtain ⟨q, hq, heq⟩ := hmem
        exact src_prefix_ne _ _ (by decide) heq
      · rfl
    · intro hft
      simp [generateProjectZip, hft]
  · constructor
    · intro hmem
      cases hft : isTSOf ft
      · exfalso
        simp [generateProjectZip, hft] at hmem
        obtain ⟨q, hq, heq⟩ := hmem
        exact src_prefix_ne _ _ (by decide) heq
      · rfl
    · intro hft
      simp [generateProjectZip, hft]
  · rw [hdev]
    cases isTSOf ft <;> simp [devDependenciesList]
  · rw [hdev]
    cases isTSOf ft <;> simp [devDependenciesList]

/-- **C6.**  Every local import whose final segment has no `.` yields a ghost
component file at the cleaned path plus the variant extension; its component
identifier consists only of alphanumeric characters, and the emitted text
exports it both as the default export and as a named export with the `Named`
suffix. -/
theorem claim_C6 (config : GeneratedProjectConfig) (ft : FileType) (p : String)
    (hmem : p ∈ config.localImports)
    (hnodot : (lastSegment (cleanImportPath p)).data.contains '.' = false) :
    ("src/" ++ (cleanImportPath p ++ componentExt (isTSOf ft)),
      dummyContent (cleanImportPath p) (componentIdent (lastSegment (cleanImportPath p))))
      ∈ generateProjectZip config ft ∧
    (componentIdent (lastSegment (cleanImportPath p))).data.all isAlphanumChar = true ∧
    (∃ pre, dummyContent (cleanImportPath p) (componentIdent (lastSegment (cleanImportPath p)))
      = pre ++ ("export default " ++ componentIdent (lastSegment (cleanImportPath p)) ++
          ";\nexport const " ++ componentIdent (lastSegment (cleanImportPath p)) ++
          "Named = " ++ componentIdent (lastSegment (cleanImportPath p)) ++ ";\n")) := by
  refine ⟨?_, ?_, ?_⟩
  · have hin : ("src/" ++ (cleanImportPath p ++ componentExt (isTSOf ft)),
        dummyContent (cleanImportPath p) (componentIdent (lastSegment (cleanImportPath p))))
        ∈ config.localImports.map
          (fun q => ("src/" ++ (ghostFile (isTSOf ft) q).1, (ghostFile (isTSOf ft) q).2)) := by
      refine List.mem_map.mpr ⟨p, hmem, ?_⟩
      rw [ghostFile_component _ _ hnodot]
    simp only [generateProjectZip]
    exact List.mem_append.mpr (Or.inl (List.mem_append.mpr (Or.inr hin)))
  · by_cases hf : List.filter isAlphanumChar (lastSegment (cleanImportPath p)).data = []
    · rw [show componentIdent (lastSegment (cleanImportPath p)) = "Component" by
        simp [componentIdent, hf]]
      decide
    · have hid : componentIdent (lastSegment (cleanImportPath p))
          = String.mk (List.filter isAlphanumChar (lastSegment (cleanImportPath p)).data) := by
        simp [componentIdent, hf]
      rw [hid, List.all_eq_true]
      intro c hc
      exact (List.mem_filter.mp hc).2
  · refine ⟨"\nimport React from \x27react\x27;\n// Ghost Component generated to prevent build errors\n// Missing file: " ++
      cleanImportPath p ++ "\nconst " ++
      componentIdent (lastSegment (cleanImportPath p)) ++
      " = (props: any) => (\n  <div className=\"p-4 border border-dashed border-amber-300 bg-amber-50 rounded text-center\">\n    <p className=\"text-amber-600 font-mono text-xs\">Missing Component: " ++
      cleanImportPath p ++ "</p>\n  </div>\n);\n", ?_⟩
    rfl

/-- Witness for C6 on `./components/Button` with variant TSX. -/
theorem claim_C6_witness :
    ("src/" ++ (cleanImportPath "./components/Button" ++ componentExt (isTSOf FileType.TSX)),
      dummyContent (cleanImportPath "./components/Button")
        (componentIdent (lastSegment (cleanImportPath "./components/Button"))))
      ∈ generateProjectZip cfgButton FileType.TSX :=
  (claim_C6 cfgButton FileType.TSX "./components/Button" (by decide) (by decide)).1

/-- **C9.**  A local import whose final segment contains a `.` but none of
the recognized stylesheet/image/json extensions yields a ghost component file
at the cleaned path exactly as given (no variant extension appended), whose
identifier keeps the alphanumeric characters — including those of the
unrecognized extension. -/
theorem claim_C9 (config : GeneratedProjectConfig) (ft : FileType) (p : String)
    (hmem : p ∈ config.localImports)
    (hdot : (lastSegment (cleanImportPath p)).data.contains '.' = true)
    (hstyle : hasAnyExt (lastSegment (cleanImportPath p)) styleExts = false)
    (himg : hasAnyExt (lastSegment (cleanImportPath p)) imageExts = false)
    (hjson : hasAnyExt (lastSegment (cleanImportPath p)) jsonExts = false) :
    ("src/" ++ cleanImportPath p,
      dummyContent (cleanImportPath p) (componentIdent (lastSegment (cleanImportPath p))))
      ∈ generateProjectZip config ft ∧
    ((componentIdent (lastSegment (cleanImportPath p))).data
        = (lastSegment (cleanImportPath p)).data.filter isAlphanumChar ∨
      componentIdent (lastSegment (cleanImportPath p)) = "Component") := by
  constructor
  · have hin : ("src/" ++ cleanImportPath p,
        dummyContent (cleanImportPath p) (componentIdent (lastSegment (cleanImportPath p))))
        ∈ config.localImports.map
          (fun q => ("src/" ++ (ghostFile (isTSOf ft) q).1, (ghostFile (isTSOf ft) q).2)) := by
      refine List.mem_map.mpr ⟨p, hmem, ?_⟩
      rw [ghostFile_dotted _ _ hdot hstyle himg hjson]
    simp only [generateProjectZip]
    exact List.mem_append.mpr (Or.inl (List.mem_append.mpr (Or.inr hin)))
  · by_cases hf : List.filter isAlphanumChar (lastSegment (cleanImportPath p)).data = []
    · right
      simp [componentIdent, hf]
    · left
      simp [componentIdent, hf]

/-- Witness for C9 on `./Comp.jsx` with variant JSX. -/
theorem claim_C9_witness :
    ("src/" ++ cleanImportPath "./Comp.jsx",
      dummyContent (cleanImportPath "./Comp.jsx")
        (componentIdent (lastSegment (cleanImportPath "./Comp.jsx"))))
      ∈ generateProjectZip cfgCompJsx FileType.JSX :=
  (claim_C9 cfgCompJsx FileType.JSX "./Comp.jsx" (by decide) (by decide) (by decide)
    (by decide) (by decide)).1

/-! ## Concrete behaviour checks of the embedding -/

/-- Deep import of an unscoped package is normalized to its root name. -/
theorem analyzeDependencies_deep_import_example :
    analyzeDependencies "import x from \"lodash/debounce\"" = ⟨["lodash"], []⟩ := by
  decide

/-- A relative path goes to `localImports` raw and leaves the package set empty. -/
theorem analyzeDependencies_local_example :
    analyzeDependencies "import x from \"./a/b\"" = ⟨[], ["./a/b"]⟩ := by
  decide

/-- A scoped deep import keeps scope and package name only. -/
theorem analyzeDependencies_scoped_example :
    analyzeDependencies "import y from \"@scope/pkg/deep/path\"" = ⟨["@scope/pkg"], []⟩ := by
  decide

/-- The implicit-dependency heuristic fires on `AnimatePresence` without
any import statement present. -/
theorem analyzeDependencies_heuristic_example :
    analyzeDependencies "const x = AnimatePresence" = ⟨["framer-motion"], []⟩ := by
  decide

/-- A `.css` local import yields the stylesheet placeholder at the cleaned
path, not a component. -/
theorem ghostFile_css_example :
    ghostFile true "./local.css" = ("local.css", stylePlaceholderContent) := by
  decide

/-- A side-effect import is caught by the second pattern. -/
theorem analyzeDependencies_side_effect_example :
    analyzeDependencies "import \"./style.css\"" = ⟨[], ["./style.css"]⟩ := by
  decide

end Code2Project
